import Mathlib

/-!
Verification of the locodrive message codec and duplex controller.

The definitions below are a shallow embedding of the Rust sources:
bytes are modelled as natural numbers (with explicit masking where the
source masks or casts), fallible parsing returns an Except value, and
places where the source can abort (assert macros, explicit aborts in
status-byte decoders, out-of-bounds slice indexing, arithmetic overflow
checks) are modelled by an Option layer whose none stands for the abort.
-/

namespace LocoDrive

/-- XOR fold of a byte list, folding from the left starting at 0,
as used by both validate and check_sum in protocol.rs. -/
def foldXor (l : List Nat) : Nat :=
  l.foldl (fun acc b => acc ^^^ b) 0

/-- Error type of message parsing, from error.rs (MessageParseError).
The payload bytes follow the declarations in error.rs, where
UnexpectedEnd and InvalidChecksum carry the opcode of the frame being
read (protocol.rs itself omits the payloads and does not compile
against error.rs as given; the carried byte is the opcode in scope). -/
inductive MessageParseError where
  | UnknownOpcode (opc : Nat)
  | UnexpectedEnd (opc : Nat)
  | InvalidFormat (description : String)
  | InvalidChecksum (opc : Nat)
  | Update
  deriving DecidableEq

/-- Decidable equality for Except results, so that concrete parses can be
settled by decide. -/
instance {ε α : Type} [DecidableEq ε] [DecidableEq α] : DecidableEq (Except ε α) := fun x y =>
  match x, y with
  | .ok a, .ok b =>
    match decEq a b with
    | isTrue h => isTrue (h ▸ rfl)
    | isFalse h => isFalse fun hh => h (Except.ok.inj hh)
  | .error a, .error b =>
    match decEq a b with
    | isTrue h => isTrue (h ▸ rfl)
    | isFalse h => isFalse fun hh => h (Except.error.inj hh)
  | .ok _, .error _ => isFalse fun hh => Except.noConfusion hh
  | .error _, .ok _ => isFalse fun hh => Except.noConfusion hh

/-- Direction state of a switch, from protocol.rs / args.rs. -/
inductive SwitchDirection where
  | Straight
  | Curved
  deriving DecidableEq

/-- Link status of a slot (stat1 bits 0x48), shared by both Stat1Arg versions. -/
inductive Consist where
  | LogicalMid
  | LogicalTop
  | LogicalSubMember
  | Free
  deriving DecidableEq

/-- Usage status of a slot (stat1 bits 0x30). -/
inductive State where
  | InUse
  | Idle
  | Common
  | Free
  deriving DecidableEq

/-- Decoder speed-control format of a slot (stat1 bits 0x07). -/
inductive DecoderType where
  | Dcc28
  | Dcc128
  | Regular28
  | AdrMobile28
  | Step14
  | Speed128
  deriving DecidableEq

/-- Input source type of a sensor, from protocol.rs (mod args). -/
inductive SourceType where
  | Aux
  | Switch
  deriving DecidableEq

namespace Protocol

/-- AddressArg from protocol.rs (mod args): a 14-bit loco address. -/
structure AddressArg where
  address : Nat
  deriving DecidableEq

/-- AddressArg::parse: adr gives the 7 low bits, adr2 the 7 high bits. -/
def AddressArg.parse (adr2 adr : Nat) : AddressArg :=
  ⟨adr ||| (adr2 <<< 7)⟩

/-- AddressArg::adr1: the 7 least significant address bits. -/
def AddressArg.adr1 (a : AddressArg) : Nat :=
  a.address &&& 0x7F

/-- AddressArg::adr2: the 7 most significant address bits. -/
def AddressArg.adr2 (a : AddressArg) : Nat :=
  (a.address >>> 7) &&& 0x7F

/-- SwitchArg from protocol.rs (mod args). -/
structure SwitchArg where
  address : Nat
  direction : SwitchDirection
  state : Bool
  deriving DecidableEq

/-- SwitchArg::parse from protocol.rs. -/
def SwitchArg.parse (sw1 sw2 : Nat) : SwitchArg :=
  { address := sw1 ||| ((sw2 &&& 0x0F) <<< 7)
    direction := if sw2 &&& 0x20 = 0 then .Curved else .Straight
    state := sw2 &&& 0x10 != 0 }

/-- SwitchArg::sw1 from protocol.rs. -/
def SwitchArg.sw1 (s : SwitchArg) : Nat :=
  s.address &&& 0x7F

/-- SwitchArg::sw2 from protocol.rs (note: this older copy emits 0x20 for
Curved, the opposite of what its own parse decodes). -/
def SwitchArg.sw2 (s : SwitchArg) : Nat :=
  (((s.address >>> 7) &&& 0x0F) |||
    (match s.direction with
      | .Curved => 0x20
      | .Straight => 0x00)) |||
  (if s.state then 0x10 else 0)

/-- SlotArg from protocol.rs (mod args): a 7-bit slot number. -/
structure SlotArg where
  val : Nat
  deriving DecidableEq

/-- SlotArg::parse masks the byte to 7 bits. -/
def SlotArg.parse (slot : Nat) : SlotArg :=
  ⟨slot &&& 0x7F⟩

/-- SlotArg::slot accessor. -/
def SlotArg.slot (s : SlotArg) : Nat :=
  s.val

/-- SpeedArg from protocol.rs (mod args). -/
inductive SpeedArg where
  | Stop
  | EmergencyStop
  | Drive (spd : Nat)
  deriving DecidableEq

/-- SpeedArg::parse from protocol.rs: 0 is Stop, 1 is EmergencyStop,
anything else is Drive(spd - 1). -/
def SpeedArg.parse (spd : Nat) : SpeedArg :=
  match spd with
  | 0 => .Stop
  | 1 => .EmergencyStop
  | _ => .Drive (spd - 1)

/-- SpeedArg::spd from protocol.rs: note this older copy returns the raw
Drive value without adding 1 back. -/
def SpeedArg.spd (s : SpeedArg) : Nat :=
  match s with
  | .Stop => 0
  | .EmergencyStop => 1
  | .Drive spd => spd

/-- DirfArg from protocol.rs (mod args): direction and functions 0 to 4. -/
structure DirfArg where
  val : Nat
  deriving DecidableEq

/-- DirfArg::parse masks to 6 bits. -/
def DirfArg.parse (dirf : Nat) : DirfArg :=
  ⟨dirf &&& 0x3F⟩

/-- DirfArg::dirf accessor. -/
def DirfArg.dirf (d : DirfArg) : Nat :=
  d.val

/-- TrkArg from protocol.rs (mod args): track status bits. -/
structure TrkArg where
  power : Bool
  idle : Bool
  mlok1 : Bool
  progBusy : Bool
  deriving DecidableEq

/-- TrkArg::parse from protocol.rs (idle is bit 0x02 cleared). -/
def TrkArg.parse (trk : Nat) : TrkArg :=
  { power := trk &&& 0x01 == 0x01
    idle := trk &&& 0x02 == 0x00
    mlok1 := trk &&& 0x04 == 0x04
    progBusy := trk &&& 0x08 == 0x08 }

/-- TrkArg::trk_arg from protocol.rs (note: this older copy sets bit 0x02
when idle is true, the opposite of its own parse). -/
def TrkArg.trkArg (t : TrkArg) : Nat :=
  (((if t.power then 0x01 else 0x00) |||
    (if t.idle then 0x02 else 0x00)) |||
   (if t.mlok1 then 0x04 else 0x00)) |||
  (if t.progBusy then 0x08 else 0x00)

/-- SndArg from protocol.rs (mod args): sound functions 5 to 8. -/
structure SndArg where
  val : Nat
  deriving DecidableEq

/-- SndArg::parse masks to 4 bits. -/
def SndArg.parse (snd : Nat) : SndArg :=
  ⟨snd &&& 0x0F⟩

/-- SndArg::snd accessor. -/
def SndArg.snd (s : SndArg) : Nat :=
  s.val

/-- Consist selector of Stat1Arg::parse: match on stat1 & 0x48; the
default arm aborts in the source, modelled as none. -/
def consistOfVal (v : Nat) : Option Consist :=
  match v with
  | 0x48 => some .LogicalMid
  | 0x08 => some .LogicalTop
  | 0x40 => some .LogicalSubMember
  | 0x00 => some .Free
  | _ => none

/-- State selector of Stat1Arg::parse: match on stat1 & 0x30; the default
arm aborts in the source, modelled as none. -/
def stateOfVal (v : Nat) : Option State :=
  match v with
  | 0x30 => some .InUse
  | 0x20 => some .Idle
  | 0x10 => some .Common
  | 0x00 => some .Free
  | _ => none

/-- Decoder-type selector of Stat1Arg::parse: match on stat1 & 0x07; the
default arm (values 5 and 6) aborts in the source, modelled as none. -/
def decoderOfVal (v : Nat) : Option DecoderType :=
  match v with
  | 0x02 => some .Step14
  | 0x01 => some .AdrMobile28
  | 0x00 => some .Regular28
  | 0x03 => some .Speed128
  | 0x07 => some .Dcc128
  | 0x04 => some .Dcc28
  | _ => none

/-- Stat1Arg from protocol.rs (mod args). -/
structure Stat1Arg where
  spurge : Bool
  consist : Consist
  state : State
  decoderType : DecoderType
  deriving DecidableEq

/-- Stat1Arg::parse from protocol.rs; aborts (none) when a selector hits
an unmapped bit pattern. -/
def Stat1Arg.parse (stat1 : Nat) : Option Stat1Arg :=
  match consistOfVal (stat1 &&& 0x48), stateOfVal (stat1 &&& 0x30),
      decoderOfVal (stat1 &&& 0x07) with
  | some consist, some state, some decoderType =>
      some { spurge := stat1 &&& 0x80 != 0, consist, state, decoderType }
  | _, _, _ => none

/-- Stat1Arg::stat1 encoder from protocol.rs. -/
def Stat1Arg.stat1 (s : Stat1Arg) : Nat :=
  (((if s.spurge then 0x80 else 0x00) |||
    (match s.consist with
      | .LogicalMid => 0x48
      | .LogicalTop => 0x08
      | .LogicalSubMember => 0x40
      | .Free => 0x00)) |||
   (match s.state with
      | .InUse => 0x30
      | .Idle => 0x20
      | .Common => 0x10
      | .Free => 0x00)) |||
  (match s.decoderType with
    | .Dcc28 => 0x04
    | .Dcc128 => 0x07
    | .Regular28 => 0x00
    | .AdrMobile28 => 0x01
    | .Step14 => 0x02
    | .Speed128 => 0x03)

/-- Stat2Arg from protocol.rs (mod args). -/
structure Stat2Arg where
  hasAdv : Bool
  noIdUsage : Bool
  idEncodedAlias : Bool
  deriving DecidableEq

/-- Stat2Arg::parse from protocol.rs. -/
def Stat2Arg.parse (stat2 : Nat) : Stat2Arg :=
  { hasAdv := stat2 &&& 0x01 != 0
    noIdUsage := stat2 &&& 0x04 != 0
    idEncodedAlias := stat2 &&& 0x08 != 0 }

/-- Stat2Arg::stat2 encoder from protocol.rs. -/
def Stat2Arg.stat2 (s : Stat2Arg) : Nat :=
  ((if s.hasAdv then 0x01 else 0x00) |||
   (if s.noIdUsage then 0x04 else 0x00)) |||
  (if s.idEncodedAlias then 0x08 else 0x00)

/-- LopcArg from protocol.rs (mod args): opcode copy of a long
acknowledgment; parse clears bit 0x40 (the u8 complement of 0x40 is 0xBF). -/
structure LopcArg where
  val : Nat
  deriving DecidableEq

/-- LopcArg::parse from protocol.rs. -/
def LopcArg.parse (lopc : Nat) : LopcArg :=
  ⟨lopc &&& 0xBF⟩

/-- LopcArg::lopc accessor. -/
def LopcArg.lopc (l : LopcArg) : Nat :=
  l.val

/-- Ack1Arg from protocol.rs (mod args): acknowledgment code byte. -/
structure Ack1Arg where
  val : Nat
  deriving DecidableEq

/-- Ack1Arg::parse from protocol.rs (stores the raw byte). -/
def Ack1Arg.parse (ack1 : Nat) : Ack1Arg :=
  ⟨ack1⟩

/-- Ack1Arg::ack1 accessor. -/
def Ack1Arg.ack1 (a : Ack1Arg) : Nat :=
  a.val

/-- InArg from protocol.rs (mod args): a sensor input report. -/
structure InArg where
  address : Nat
  sourceType : SourceType
  state : Bool
  deriving DecidableEq

/-- InArg::parse from protocol.rs. -/
def InArg.parse (in1 in2 : Nat) : InArg :=
  { address := in1 ||| ((in2 &&& 0x0F) <<< 7)
    sourceType := if in2 &&& 0x20 = 0 then .Aux else .Switch
    state := in2 &&& 0x10 != 0 }

/-- InArg::in1 from protocol.rs (cast to u8 then masked). -/
def InArg.in1 (i : InArg) : Nat :=
  (i.address % 256) &&& 0x7F

/-- InArg::in2 from protocol.rs. -/
def InArg.in2 (i : InArg) : Nat :=
  ((((i.address >>> 7) % 256) &&& 0x0F) |||
    (match i.sourceType with
      | .Aux => 0x00
      | .Switch => 0x20)) |||
  (if i.state then 0x10 else 0)

/-- SnArg from protocol.rs (mod args): a switch report. -/
structure SnArg where
  address : Nat
  format : Bool
  c : Bool
  t : Bool
  deriving DecidableEq

/-- SnArg::parse from protocol.rs. -/
def SnArg.parse (sn1 sn2 : Nat) : SnArg :=
  { address := sn1 ||| ((sn2 &&& 0x0F) <<< 7)
    format := sn2 &&& 0x20 == 0x20
    c := sn2 &&& 0x40 == 0x40
    t := sn2 &&& 0x80 == 0x80 }

/-- SnArg::sn1 from protocol.rs. -/
def SnArg.sn1 (s : SnArg) : Nat :=
  (s.address % 256) &&& 0x7F

/-- SnArg::sn2 from protocol.rs (the format bit is not re-emitted). -/
def SnArg.sn2 (s : SnArg) : Nat :=
  ((((s.address >>> 7) % 256) &&& 0x0F) |||
   (if s.c then 0x40 else 0)) |||
  (if s.t then 0x80 else 0)

/-- IdArg from protocol.rs (mod args): two id bytes masked with 0xF7. -/
structure IdArg where
  fst : Nat
  snd : Nat
  deriving DecidableEq

/-- IdArg::parse from protocol.rs. -/
def IdArg.parse (id1 id2 : Nat) : IdArg :=
  ⟨id1 &&& 0xF7, id2 &&& 0xF7⟩

/-- IdArg::id1 accessor. -/
def IdArg.id1 (i : IdArg) : Nat :=
  i.fst

/-- IdArg::id2 accessor. -/
def IdArg.id2 (i : IdArg) : Nat :=
  i.snd

/-- MTypeArg from protocol.rs (mod args). -/
structure MTypeArg where
  val : Nat
  deriving DecidableEq

/-- MTypeArg::parse stores the raw byte. -/
def MTypeArg.parse (mType : Nat) : MTypeArg :=
  ⟨mType⟩

/-- MTypeArg::m_type accessor. -/
def MTypeArg.mType (m : MTypeArg) : Nat :=
  m.val

/-- ZasArg from protocol.rs (mod args). -/
structure ZasArg where
  val : Nat
  deriving DecidableEq

/-- ZasArg::parse stores the raw byte. -/
def ZasArg.parse (zas : Nat) : ZasArg :=
  ⟨zas⟩

/-- ZasArg::zas accessor. -/
def ZasArg.zas (z : ZasArg) : Nat :=
  z.val

/-- SenseAddrArg from protocol.rs (mod args). -/
structure SenseAddrArg where
  val : Nat
  deriving DecidableEq

/-- SenseAddrArg::parse from protocol.rs (the high byte is not masked). -/
def SenseAddrArg.parse (addr1 addr2 : Nat) : SenseAddrArg :=
  ⟨addr1 ||| (addr2 <<< 7)⟩

/-- SenseAddrArg::addr1 from protocol.rs (cast to u8 then masked). -/
def SenseAddrArg.addr1 (s : SenseAddrArg) : Nat :=
  (s.val % 256) &&& 0x7F

/-- SenseAddrArg::addr2 from protocol.rs (shift then cast to u8). -/
def SenseAddrArg.addr2 (s : SenseAddrArg) : Nat :=
  (s.val >>> 7) % 256

/-- FunctionArg from protocol.rs (mod args): group byte and function byte. -/
structure FunctionArg where
  group : Nat
  function : Nat
  deriving DecidableEq

/-- FunctionArg::parse stores both raw bytes. -/
def FunctionArg.parse (group function : Nat) : FunctionArg :=
  ⟨group, function⟩

/-- Pcmd from protocol.rs (mod args): programming command bits. -/
structure Pcmd where
  write : Bool
  byteMode : Bool
  opsMode : Bool
  ty1 : Bool
  ty2 : Bool
  deriving DecidableEq

/-- Pcmd::parse from protocol.rs. -/
def Pcmd.parse (pcmd : Nat) : Pcmd :=
  { write := pcmd &&& 0x20 == 0x20
    byteMode := pcmd &&& 0x40 == 0x40
    opsMode := pcmd &&& 0x02 == 0x02
    ty1 := pcmd &&& 0x80 == 0x80
    ty2 := pcmd &&& 0x01 == 0x01 }

/-- Pcmd::pcmd encoder from protocol.rs. -/
def Pcmd.pcmd (p : Pcmd) : Nat :=
  ((((if p.write then 0x20 else 0x00) |||
     (if p.byteMode then 0x40 else 0x00)) |||
    (if p.opsMode then 0x02 else 0x00)) |||
   (if p.ty1 then 0x80 else 0x00)) |||
  (if p.ty2 then 0x01 else 0x00)

/-- Hopsa from protocol.rs (mod args): high ops address, masked to 7 bits. -/
structure Hopsa where
  val : Nat
  deriving DecidableEq

/-- Hopsa::parse from protocol.rs. -/
def Hopsa.parse (oMode : Nat) : Hopsa :=
  ⟨oMode &&& 0x7F⟩

/-- Hopsa::o_mode accessor. -/
def Hopsa.oMode (h : Hopsa) : Nat :=
  h.val

/-- Lopsa from protocol.rs (mod args): low ops address, masked to 7 bits. -/
structure Lopsa where
  val : Nat
  deriving DecidableEq

/-- Lopsa::parse from protocol.rs. -/
def Lopsa.parse (oMode : Nat) : Lopsa :=
  ⟨oMode &&& 0x7F⟩

/-- Lopsa::o_mode accessor. -/
def Lopsa.oMode (l : Lopsa) : Nat :=
  l.val

/-- CvArg from protocol.rs (mod args): a control-variable number. -/
structure CvArg where
  val : Nat
  deriving DecidableEq

/-- CvArg::parse from protocol.rs: reassembles the cv number from the
scattered bits of cvh and cvl. -/
def CvArg.parse (cvh cvl : Nat) : CvArg :=
  let dataArg := (cvh &&& 0x02) >>> 1
  let highCv := ((cvh &&& 0x01) ||| ((cvh &&& 0x30) >>> 3)) ||| (dataArg <<< 3)
  ⟨cvl ||| (highCv <<< 7)⟩

/-- CvArg::data7 from protocol.rs. -/
def CvArg.data7 (c : CvArg) : Bool :=
  c.val &&& 0x0800 != 0

/-- CvArg::cvh encoder from protocol.rs (0x06 << 3 is 0x30 by Rust
operator precedence). -/
def CvArg.cvh (c : CvArg) : Nat :=
  let base := (c.val >>> 7) % 256
  ((base &&& 0x30) ||| (base &&& 0x01)) |||
  (if c.data7 then 0x02 else 0x00)

/-- CvArg::cvl encoder from protocol.rs. -/
def CvArg.cvl (c : CvArg) : Nat :=
  (c.val % 256) &&& 0x7F

/-- DataArg from protocol.rs (mod args): a raw data byte. -/
structure DataArg where
  val : Nat
  deriving DecidableEq

/-- DataArg::parse stores the raw byte. -/
def DataArg.parse (data : Nat) : DataArg :=
  ⟨data⟩

/-- DataArg::data accessor. -/
def DataArg.data (d : DataArg) : Nat :=
  d.val

/-- FastClock from protocol.rs (mod args). The duration is kept in
seconds; the u8 subtraction x - 0xFF in parse wraps (release semantics),
so it is modelled as (x + 1) mod 256. -/
structure FastClock where
  clkRate : Nat
  fracMinsl : Nat
  fracMinsh : Nat
  durationSecs : Nat
  clkCntrl : Nat
  deriving DecidableEq

/-- FastClock::parse from protocol.rs. -/
def FastClock.parse (clkRate fracMinsl fracMinsh mins hours days clkCntrl : Nat) :
    FastClock :=
  let minv := (mins % 60 + 1) % 256
  let hourv := (hours % 60 + 1) % 256
  { clkRate := clkRate &&& 0x7F
    fracMinsl
    fracMinsh
    durationSecs := minv * 60 + hourv * 60 * 60 + days * 24 * 60 * 60
    clkCntrl }

/-- FastClock::mins from protocol.rs. -/
def FastClock.mins (f : FastClock) : Nat :=
  0xFF - f.durationSecs % 60

/-- FastClock::hours from protocol.rs. -/
def FastClock.hours (f : FastClock) : Nat :=
  0xFF - f.durationSecs / 60 % 60

/-- FastClock::days from protocol.rs. -/
def FastClock.days (f : FastClock) : Nat :=
  0xFF - f.durationSecs / 60 / 60 % 24

/-- ImArg from protocol.rs (mod args): payload of an immediate packet. -/
structure ImArg where
  reps : Nat
  dhi : Nat
  address : Nat
  functionType : Nat
  functionBits : Nat
  im5 : Nat
  deriving DecidableEq

/-- ImArg::parse from protocol.rs; the assert on the 0x7F check byte is
modelled as none. -/
def ImArg.parse (checkByte reps dhi im1 im2 im3 im4 im5 : Nat) : Option ImArg :=
  if checkByte ≠ 0x7F then none
  else if reps = 0x34 then
    let address := (im2 <<< 8) ||| im1
    let functionType := if im3 = 0x5E then 0x5E else if im3 = 0x5F then 0x5F else 0x20
    let functionBits :=
      (if functionType = 0x5E ∨ functionType = 0x5F then im4 else im3) &&& 0x7F
    some { reps, dhi, address, functionType, functionBits, im5 }
  else
    let address := im1
    let functionType := if im3 = 0x5E then 0x5E else if im3 = 0x5F then 0x5F else 0x20
    let functionBits :=
      (if functionType = 0x5E ∨ functionType = 0x5F then im3 else im2 &&& 0xDF) &&& 0x7F
    some { reps, dhi, address, functionType, functionBits, im5 }

/-- ImArg::im1 from protocol.rs (address cast to u8). -/
def ImArg.im1 (i : ImArg) : Nat :=
  i.address % 256

/-- ImArg::im2 from protocol.rs. -/
def ImArg.im2 (i : ImArg) : Nat :=
  if i.reps = 0x34 then (i.address >>> 8) % 256
  else if i.functionType = 0x20 then i.functionBits ||| 0x20
  else i.functionType

/-- ImArg::im3 from protocol.rs. -/
def ImArg.im3 (i : ImArg) : Nat :=
  if i.reps = 0x34 then
    if i.functionType = 0x20 then i.functionBits ||| 0x20 else i.functionType
  else
    if i.functionType = 0x20 then 0x00 else i.functionBits

/-- ImArg::im4 from protocol.rs. -/
def ImArg.im4 (i : ImArg) : Nat :=
  if i.reps = 0x34 ∧ i.functionType ≠ 0x20 then i.functionBits else 0x00

/-- WrSlDataTime from protocol.rs (mod args): clock payload of a
write-slot-data message. -/
structure WrSlDataTime where
  clock : FastClock
  trk : TrkArg
  id : IdArg
  deriving DecidableEq

/-- WrSlDataTime::parse from protocol.rs (note the positional mapping to
FastClock::parse swaps the frac bytes). -/
def WrSlDataTime.parse (clkRate fracMinsh fracMinsl mins trk hours days clkCntr id1 id2 : Nat) :
    WrSlDataTime :=
  { clock := FastClock.parse clkRate fracMinsl fracMinsh mins hours days clkCntr
    trk := TrkArg.parse trk
    id := IdArg.parse id1 id2 }

/-- WrSlDataPt from protocol.rs (mod args): programming-track payload of a
write-slot-data message. -/
structure WrSlDataPt where
  pcmd : Pcmd
  hopsa : Hopsa
  lopsa : Lopsa
  trk : TrkArg
  cv : CvArg
  data : DataArg
  deriving DecidableEq

/-- WrSlDataPt::parse from protocol.rs (arg3, arg10 and arg11 are ignored
by the source). -/
def WrSlDataPt.parse (pcmd _arg3 hopsa lopsa trk cvh cvl data7 _arg10 _arg11 : Nat) :
    WrSlDataPt :=
  { pcmd := Pcmd.parse pcmd
    hopsa := Hopsa.parse hopsa
    lopsa := Lopsa.parse lopsa
    trk := TrkArg.parse trk
    cv := CvArg.parse cvh cvl
    data := DataArg.parse data7 }

/-- WrSlDataGeneral from protocol.rs (mod args): general slot payload of a
write-slot-data message. -/
structure WrSlDataGeneral where
  slot : SlotArg
  stat1 : Stat1Arg
  stat2 : Stat2Arg
  addr : AddressArg
  spd : SpeedArg
  dirf : DirfArg
  trk : TrkArg
  snd : SndArg
  id : IdArg
  deriving DecidableEq

/-- WrSlDataGeneral::parse from protocol.rs; aborts (none) when
Stat1Arg::parse aborts. -/
def WrSlDataGeneral.parse (slot stat1 adr spd dirf trk stat2 adr2 snd id1 id2 : Nat) :
    Option WrSlDataGeneral :=
  match Stat1Arg.parse stat1 with
  | none => none
  | some s1 =>
      some { slot := SlotArg.parse slot
             stat1 := s1
             stat2 := Stat2Arg.parse stat2
             addr := AddressArg.parse adr2 adr
             spd := SpeedArg.parse spd
             dirf := DirfArg.parse dirf
             trk := TrkArg.parse trk
             snd := SndArg.parse snd
             id := IdArg.parse id1 id2 }

/-- WrSlDataStructure from protocol.rs (mod args): the payload of a
write-slot-data message with all three decodings kept, selected by the
slot-type byte. -/
structure WrSlDataStructure where
  slotType : Nat
  timeSlot : WrSlDataTime
  ptSlot : WrSlDataPt
  generalSlot : WrSlDataGeneral
  deriving DecidableEq

/-- WrSlDataStructure::parse from protocol.rs: all three sub-payloads are
decoded eagerly, so the abort inside the general decoding (unmapped
decoder type) aborts the whole parse. -/
def WrSlDataStructure.parse (arg1 arg2 arg3 arg4 arg5 arg6 arg7 arg8 arg9 arg10 arg11 : Nat) :
    Option WrSlDataStructure :=
  let slotType := if arg1 = 0x7C then 0x7C else if arg1 = 0x7B then 0x7B else 0x00
  let timeSlot := WrSlDataTime.parse arg2 arg3 arg4 arg5 arg6 arg7 arg8 arg9 arg10 arg11
  let ptSlot := WrSlDataPt.parse arg2 arg3 arg4 arg5 arg6 arg7 arg8 arg9 arg10 arg11
  match WrSlDataGeneral.parse arg1 arg2 arg3 arg4 arg5 arg6 arg7 arg8 arg9 arg10 arg11 with
  | none => none
  | some generalSlot => some { slotType, timeSlot, ptSlot, generalSlot }

/-- WrSlDataStructure::to_message from protocol.rs: re-encodes the
selected sub-payload into the 13 bytes before the checksum. -/
def WrSlDataStructure.toMessage (w : WrSlDataStructure) : List Nat :=
  if w.slotType = 0x7C then
    [0xEF, 0x0E, 0x7C, w.ptSlot.pcmd.pcmd, 0x00, w.ptSlot.hopsa.oMode,
      w.ptSlot.lopsa.oMode, w.ptSlot.trk.trkArg, w.ptSlot.cv.cvh,
      w.ptSlot.cv.cvl, w.ptSlot.data.data, 0x00, 0x00]
  else if w.slotType = 0x7B then
    [0xEF, 0x0E, 0x7B, w.timeSlot.clock.clkRate, w.timeSlot.clock.fracMinsl,
      w.timeSlot.clock.fracMinsh, w.timeSlot.clock.mins, w.timeSlot.trk.trkArg,
      w.timeSlot.clock.hours, w.timeSlot.clock.days, w.timeSlot.clock.clkCntrl,
      w.timeSlot.id.id1, w.timeSlot.id.id2]
  else
    [0xEF, 0x0E, w.generalSlot.slot.slot, w.generalSlot.stat1.stat1,
      w.generalSlot.addr.adr1, w.generalSlot.spd.spd, w.generalSlot.dirf.dirf,
      w.generalSlot.trk.trkArg, w.generalSlot.stat2.stat2,
      w.generalSlot.addr.adr2, w.generalSlot.snd.snd,
      w.generalSlot.id.id1, w.generalSlot.id.id2]

/-- Message from protocol.rs: the tagged union of all protocol messages. -/
inductive Message where
  | Idle
  | GpOn
  | GpOff
  | Busy
  | LocoAdr (addr : AddressArg)
  | SwAck (sw : SwitchArg)
  | SwState (sw : SwitchArg)
  | RqSlData (slot : SlotArg)
  | MoveSlots (src dst : SlotArg)
  | LinkSlots (sl1 sl2 : SlotArg)
  | UnlinkSlots (sl1 sl2 : SlotArg)
  | ConsistFunc (slot : SlotArg) (dirf : DirfArg)
  | SlotStat1 (slot : SlotArg) (stat1 : Stat1Arg)
  | LongAck (lopc : LopcArg) (ack1 : Ack1Arg)
  | InputRep (input : InArg)
  | SwRep (sn : SnArg)
  | SwReq (sw : SwitchArg)
  | LocoSnd (slot : SlotArg) (snd : SndArg)
  | LocoDirf (slot : SlotArg) (dirf : DirfArg)
  | LocoSpd (slot : SlotArg) (spd : SpeedArg)
  | MultiSense (mType : MTypeArg) (zas : ZasArg) (senseAddr : SenseAddrArg)
  | UhliFun (slot : SlotArg) (function : FunctionArg)
  | WrSlData (data : WrSlDataStructure)
  | SlRdData (slot : SlotArg) (stat1 : Stat1Arg) (addr : AddressArg)
      (spd : SpeedArg) (dirf : DirfArg) (trk : TrkArg) (stat2 : Stat2Arg)
      (snd : SndArg) (id : IdArg)
  | ImmPacket (im : ImArg)
  deriving DecidableEq

/-- Body of Message::to_message from protocol.rs: the per-variant byte
vector before the checksum byte is appended. -/
def messageBody (m : Message) : List Nat :=
  match m with
  | .Idle => [0x85]
  | .GpOn => [0x83]
  | .GpOff => [0x82]
  | .Busy => [0x81]
  | .LocoAdr adrArg => [0xBF, adrArg.adr2, adrArg.adr1]
  | .SwAck switchArg => [0xBD, switchArg.sw1, switchArg.sw2]
  | .SwState switchArg => [0xBC, switchArg.sw1, switchArg.sw2]
  | .RqSlData slotArg => [0xBB, slotArg.slot, 0x00]
  | .MoveSlots src dst => [0xBA, src.slot, dst.slot]
  | .LinkSlots sl1 sl2 => [0xB9, sl1.slot, sl2.slot]
  | .UnlinkSlots sl1 sl2 => [0xB8, sl1.slot, sl2.slot]
  | .ConsistFunc slot dirf => [0xB6, slot.slot, dirf.dirf]
  | .SlotStat1 slot stat1 => [0xB5, slot.slot, stat1.stat1]
  | .LongAck lopc ack1 => [0xB4, lopc.lopc, ack1.ack1]
  | .InputRep input => [0xB2, input.in1, input.in2]
  | .SwRep snArg => [0xB1, snArg.sn1, snArg.sn2]
  | .SwReq sw => [0xB0, sw.sw1, sw.sw2]
  | .LocoSnd slot snd => [0xA2, slot.slot, snd.snd]
  | .LocoDirf slot dirf => [0xA1, slot.slot, dirf.dirf]
  | .LocoSpd slot spd => [0xA0, slot.slot, spd.spd]
  | .MultiSense mType zas senseAdr =>
      [0xD0, mType.mType, zas.zas, senseAdr.addr1, senseAdr.addr2]
  | .UhliFun slot function =>
      [0xD4, 0x20, slot.slot, function.group, function.function]
  | .WrSlData wrSlotDataArg => wrSlotDataArg.toMessage
  | .SlRdData slot stat1 adr spd dirf trk stat2 snd id =>
      [0xE7, 0x0E, slot.slot, stat1.stat1, adr.adr1, spd.spd, dirf.dirf,
        trk.trkArg, stat2.stat2, adr.adr2, snd.snd, id.id1, id.id2]
  | .ImmPacket im =>
      [0xED, 0x0B, 0x7F, im.reps, im.dhi, im.im1, im.im2, im.im3, im.im4, im.im5]

/-- Message::check_sum from protocol.rs: the plain XOR fold of the bytes
(note: without the 0xFF complement). -/
def checkSum (msg : List Nat) : Nat :=
  foldXor msg

/-- Message::to_message from protocol.rs: the per-variant body with the
check_sum byte appended. -/
def toMessage (m : Message) : List Nat :=
  let message := messageBody m
  message ++ [checkSum message]

/-- Message::validate from protocol.rs: a frame is valid iff the XOR fold
of all its bytes (checksum included) is 0xFF. -/
def validate (msg : List Nat) : Bool :=
  foldXor msg == 0xFF

/-- Message::parse2 from protocol.rs: dispatch of 2-byte messages. -/
def parse2 (opc : Nat) : Option (Except MessageParseError Message) :=
  match opc with
  | 0x85 => some (.ok .Idle)
  | 0x83 => some (.ok .GpOn)
  | 0x82 => some (.ok .GpOff)
  | 0x81 => some (.ok .Busy)
  | _ => some (.error (.UnknownOpcode opc))

/-- Message::parse4 from protocol.rs: dispatch of 4-byte messages over the
two argument bytes; none marks the abort inside Stat1Arg::parse. -/
def parse4 (opc a0 a1 : Nat) : Option (Except MessageParseError Message) :=
  match opc with
  | 0xBF => some (.ok (.LocoAdr (AddressArg.parse a0 a1)))
  | 0xBD => some (.ok (.SwAck (SwitchArg.parse a0 a1)))
  | 0xBC => some (.ok (.SwState (SwitchArg.parse a0 a1)))
  | 0xBB => some (.ok (.RqSlData (SlotArg.parse a0)))
  | 0xBA => some (.ok (.MoveSlots (SlotArg.parse a0) (SlotArg.parse a1)))
  | 0xB9 => some (.ok (.LinkSlots (SlotArg.parse a0) (SlotArg.parse a1)))
  | 0xB8 => some (.ok (.UnlinkSlots (SlotArg.parse a0) (SlotArg.parse a1)))
  | 0xB6 => some (.ok (.ConsistFunc (SlotArg.parse a0) (DirfArg.parse a1)))
  | 0xB5 => (Stat1Arg.parse a1).map fun s => .ok (.SlotStat1 (SlotArg.parse a0) s)
  | 0xB4 => some (.ok (.LongAck (LopcArg.parse a0) (Ack1Arg.parse a1)))
  | 0xB2 => some (.ok (.InputRep (InArg.parse a0 a1)))
  | 0xB1 => some (.ok (.SwRep (SnArg.parse a0 a1)))
  | 0xB0 => some (.ok (.SwReq (SwitchArg.parse a0 a1)))
  | 0xA2 => some (.ok (.LocoSnd (SlotArg.parse a0) (SndArg.parse a1)))
  | 0xA1 => some (.ok (.LocoDirf (SlotArg.parse a0) (DirfArg.parse a1)))
  | 0xA0 => some (.ok (.LocoSpd (SlotArg.parse a0) (SpeedArg.parse a1)))
  | _ => some (.error (.UnknownOpcode opc))

/-- Message::parse6 from protocol.rs: dispatch of 6-byte messages over the
four argument bytes; the assert that the first UhliFun argument byte is
0x20 is modelled as none. -/
def parse6 (opc a0 a1 a2 a3 : Nat) : Option (Except MessageParseError Message) :=
  match opc with
  | 0xD0 =>
      some (.ok (.MultiSense (MTypeArg.parse a0) (ZasArg.parse a1)
        (SenseAddrArg.parse a2 a3)))
  | 0xD4 =>
      if a0 = 0x20 then
        some (.ok (.UhliFun (SlotArg.parse a1) (FunctionArg.parse a2 a3)))
      else none
  | _ => some (.error (.UnknownOpcode opc))

/-- Message::parse_var from protocol.rs: dispatch of variable-length
messages over the argument bytes (frame minus opcode and checksum).
The length assert, slice indexing beyond the argument list, the ImArg
check byte assert, and aborts inside Stat1Arg::parse are none. -/
def parseVar (opc : Nat) (args : List Nat) : Option (Except MessageParseError Message) :=
  if args.length + 2 ≠ args.getD 0 0 then none
  else
    match opc with
    | 0xE7 =>
        if args.length < 12 then none
        else
          (Stat1Arg.parse (args.getD 2 0)).map fun s =>
            .ok (.SlRdData (SlotArg.parse (args.getD 1 0)) s
              (AddressArg.parse (args.getD 8 0) (args.getD 3 0))
              (SpeedArg.parse (args.getD 4 0))
              (DirfArg.parse (args.getD 5 0))
              (TrkArg.parse (args.getD 6 0))
              (Stat2Arg.parse (args.getD 7 0))
              (SndArg.parse (args.getD 9 0))
              (IdArg.parse (args.getD 10 0) (args.getD 11 0)))
    | 0xED =>
        if args.length < 9 then none
        else
          (ImArg.parse (args.getD 1 0) (args.getD 2 0) (args.getD 3 0)
            (args.getD 4 0) (args.getD 5 0) (args.getD 6 0) (args.getD 7 0)
            (args.getD 8 0)).map fun im => .ok (.ImmPacket im)
    | 0xEF =>
        if args.length < 12 then none
        else
          (WrSlDataStructure.parse (args.getD 1 0) (args.getD 2 0)
            (args.getD 3 0) (args.getD 4 0) (args.getD 5 0) (args.getD 6 0)
            (args.getD 7 0) (args.getD 8 0) (args.getD 9 0) (args.getD 10 0)
            (args.getD 11 0)).map fun w => .ok (.WrSlData w)
    | _ => some (.error (.UnknownOpcode opc))

/-- Frame length table of Message::parse from protocol.rs: determined by
the three most significant opcode bits; for the 0xE0 class the second
byte of the frame is the length; none is an unknown opcode class. -/
def declLen (opc b1 : Nat) : Option Nat :=
  match opc &&& 0xE0 with
  | 0x80 => some 2
  | 0xA0 => some 4
  | 0xC0 => some 6
  | 0xE0 => some b1
  | _ => none

/-- Checksum validation and length dispatch of Message::parse from
protocol.rs, applied to the first len bytes of the stream. -/
def parseChecked (opc len : Nat) (buf : List Nat) :
    Option (Except MessageParseError Message) :=
  if foldXor buf ≠ 0xFF then some (.error (.InvalidChecksum opc))
  else
    match len with
    | 2 => parse2 opc
    | 4 => parse4 opc (buf.getD 1 0) (buf.getD 2 0)
    | 6 => parse6 opc (buf.getD 1 0) (buf.getD 2 0) (buf.getD 3 0) (buf.getD 4 0)
    | _ => parseVar opc ((buf.drop 1).take (len - 2))

/-- Message::parse from protocol.rs over a byte list standing for the
stream: reads the opcode and the second byte, determines the frame
length, reads exactly that many bytes (UnexpectedEnd when the stream is
shorter), validates the checksum, and dispatches on the length. -/
def parseFull (l : List Nat) : Option (Except MessageParseError Message) :=
  match l with
  | [] => some (.error (.UnexpectedEnd 0))
  | [opc] => some (.error (.UnexpectedEnd opc))
  | opc :: b1 :: rest =>
    match declLen opc b1 with
    | none => some (.error (.UnknownOpcode opc))
    | some len =>
      if rest.length + 2 < len then some (.error (.UnexpectedEnd opc))
      else parseChecked opc len ((opc :: b1 :: rest).take len)

end Protocol

namespace Args

/-- SpeedArg from args.rs: the newer speed codec. -/
inductive SpeedArg where
  | Stop
  | EmergencyStop
  | Drive (spd : Nat)
  deriving DecidableEq

/-- SpeedArg::parse from args.rs: 0 is Stop, 1 is EmergencyStop, anything
else is Drive(spd - 1). -/
def SpeedArg.parse (spd : Nat) : SpeedArg :=
  match spd with
  | 0 => .Stop
  | 1 => .EmergencyStop
  | _ => .Drive (spd - 1)

/-- SpeedArg::spd from args.rs: Stop is 0, EmergencyStop is 1 and
Drive(spd) is (spd + 1) masked to 7 bits. -/
def SpeedArg.spd (s : SpeedArg) : Nat :=
  match s with
  | .Stop => 0
  | .EmergencyStop => 1
  | .Drive spd => (spd + 1) &&& 0x7F

/-- SlotArg from args.rs: a 7-bit slot number. -/
structure SlotArg where
  val : Nat
  deriving DecidableEq

/-- SlotArg::new from args.rs masks the input to 7 bits. -/
def SlotArg.new (slot : Nat) : SlotArg :=
  ⟨slot &&& 0x7F⟩

/-- SlotArg::parse from args.rs masks the input to 7 bits. -/
def SlotArg.parse (slot : Nat) : SlotArg :=
  ⟨slot &&& 0x7F⟩

/-- SlotArg::slot accessor from args.rs. -/
def SlotArg.slot (s : SlotArg) : Nat :=
  s.val

/-- Stat1Arg from args.rs: general slot status. -/
structure Stat1Arg where
  sPurge : Bool
  consist : Consist
  state : State
  decoderType : DecoderType
  deriving DecidableEq

/-- Consist selector of Stat1Arg::parse from args.rs: unmapped patterns
fall back to Free. -/
def consistOfValNew (v : Nat) : Consist :=
  match v with
  | 0x48 => .LogicalMid
  | 0x08 => .LogicalTop
  | 0x40 => .LogicalSubMember
  | 0x00 => .Free
  | _ => .Free

/-- State selector of Stat1Arg::parse from args.rs: unmapped patterns
fall back to Free. -/
def stateOfValNew (v : Nat) : State :=
  match v with
  | 0x30 => .InUse
  | 0x20 => .Idle
  | 0x10 => .Common
  | 0x00 => .Free
  | _ => .Free

/-- Stat1Arg::parse from args.rs: the decoder-type selector keeps the
abort of the older version (values 5 and 6 of stat1 & 7), modelled as
none; the other two selectors fall back to Free. -/
def Stat1Arg.parse (stat1 : Nat) : Option Stat1Arg :=
  match Protocol.decoderOfVal (stat1 &&& 0x07) with
  | none => none
  | some decoderType =>
      some { sPurge := stat1 &&& 0x80 != 0
             consist := consistOfValNew (stat1 &&& 0x48)
             state := stateOfValNew (stat1 &&& 0x30)
             decoderType }

/-- FunctionArg from args.rs: group byte and function byte. -/
structure FunctionArg where
  group : Nat
  function : Nat
  deriving DecidableEq

/-- FunctionArg::parse from args.rs stores both raw bytes. -/
def FunctionArg.parse (group function : Nat) : FunctionArg :=
  ⟨group, function⟩

/-- FunctionArg::f from args.rs: reads the function bit of f_num for the
active group; in group 0x05 it reads bit 4 for f12, bit 5 for f20 and
bit 6 for f28. -/
def FunctionArg.f (a : FunctionArg) (fNum : Nat) : Bool :=
  if 8 < fNum ∧ fNum < 12 ∧ a.group = 0x07 then
    (a.function >>> (fNum - 5)) &&& 1 != 0
  else if (fNum = 12 ∨ fNum = 20 ∨ fNum = 28) ∧ a.group = 0x05 then
    (a.function >>> (if fNum = 12 then 4 else if fNum = 20 then 5 else 6)) &&& 1 != 0
  else if 12 < fNum ∧ fNum < 20 ∧ a.group = 0x08 then
    (a.function >>> (fNum - 13)) &&& 1 != 0
  else if 20 < fNum ∧ fNum < 28 ∧ a.group = 0x09 then
    (a.function >>> (fNum - 21)) &&& 1 != 0
  else
    false

/-- FunctionArg::set_f from args.rs: writes the function bit of f_num for
the active group; in group 0x05 it writes bit 0 for f12, bit 1 for f20
and bit 2 for f28 (clearing uses the u8 complement of the mask). -/
def FunctionArg.set_f (a : FunctionArg) (fNum : Nat) (value : Bool) : FunctionArg :=
  let mask :=
    if 8 < fNum ∧ fNum < 12 ∧ a.group = 0x07 then
      1 <<< (fNum - 5)
    else if (fNum = 12 ∨ fNum = 20 ∨ fNum = 28) ∧ a.group = 0x05 then
      1 <<< (if fNum = 12 then 0 else if fNum = 20 then 1 else 2)
    else if 12 < fNum ∧ fNum < 20 ∧ a.group = 0x08 then
      1 <<< (fNum - 13)
    else if 20 < fNum ∧ fNum < 28 ∧ a.group = 0x09 then
      1 <<< (fNum - 21)
    else
      0x00
  if value then { a with function := a.function ||| mask }
  else { a with function := a.function &&& (0xFF ^^^ mask) }

end Args

namespace LocoController

/-- Sending error type from error.rs (LocoDriveSendingError). -/
inductive LocoDriveSendingError where
  | IllegalState
  | Timeout
  | NotWritable
  deriving DecidableEq

/-- Environment of one send_message call from loco_controller.rs: whether
a reading thread exists, whether the underlying write succeeds, whether
the reader has already cleared the pending-echo slot by the time the
writer re-checks it after the write, and whether the notify fires before
the sending timeout elapses. -/
structure SendContext where
  readerRunning : Bool
  writeOk : Bool
  echoClearedDuringWrite : Bool
  notifiedBeforeTimeout : Bool
  deriving DecidableEq

/-- LocoDriveController::send_message from loco_controller.rs: checks the
reading thread, stores the encoded frame in the pending-echo slot,
writes it, and waits (bounded by the sending timeout) for the reader to
signal the echo. The second component is the content of the
pending-echo slot after the call. -/
def sendMessage (ctx : SendContext) (m : Protocol.Message) :
    Except LocoDriveSendingError Unit × List Nat :=
  if !ctx.readerRunning then (.error .IllegalState, [])
  else
    let bytes := Protocol.toMessage m
    if !ctx.writeOk then (.error .NotWritable, bytes)
    else if ctx.echoClearedDuringWrite then (.ok (), [])
    else if ctx.notifiedBeforeTimeout then (.ok (), [])
    else (.error .Timeout, bytes)

/-- Modelled from the spec: the controller compiles against a newer
message catalog absent from src (Message::to_message with the
complemented checksum); per the spec, to_wire appends the checksum byte
0xFF XOR fold_xor(all preceding bytes). The per-variant bodies are the
embedded message bodies. -/
def specToWire (m : Protocol.Message) : List Nat :=
  let body := Protocol.messageBody m
  body ++ [0xFF ^^^ foldXor body]

/-- Modelled from the spec: Message::opc of the newer catalog is absent
from src; per the spec the opcode is the first byte of a frame. -/
def specOpc (m : Protocol.Message) : Nat :=
  (Protocol.messageBody m).getD 0 0

/-- Modelled from the spec: Message::answer_follows of the newer catalog
is absent from src; per spec section 4.2 a message expects an answer when
it expects an acknowledgment (loco-address request, switch-ack/state/
request, write-slot-data, immediate-packet) or expects slot data
(loco-address request, request-slot-data, move/link/unlink-slots). -/
def answerFollows (m : Protocol.Message) : Bool :=
  match m with
  | .LocoAdr _ => true
  | .SwAck _ => true
  | .SwState _ => true
  | .SwReq _ => true
  | .WrSlData _ => true
  | .ImmPacket _ => true
  | .RqSlData _ => true
  | .MoveSlots _ _ => true
  | .LinkSlots _ _ => true
  | .UnlinkSlots _ _ => true
  | _ => false

/-- Modelled from the spec: Message::await_slot_data of the newer catalog
is absent from src; per spec section 4.2 the expects-slot-data messages
are loco-address request, request-slot-data and move/link/unlink-slots. -/
def awaitSlotData (m : Protocol.Message) : Bool :=
  match m with
  | .LocoAdr _ => true
  | .RqSlData _ => true
  | .MoveSlots _ _ => true
  | .LinkSlots _ _ => true
  | .UnlinkSlots _ _ => true
  | _ => false

/-- LopcArg::check_opc from args.rs: the sent message matches the
acknowledgment when its opcode masked with 0x7F equals the stored
opcode copy. -/
def checkOpc (l : Protocol.LopcArg) (m : Protocol.Message) : Bool :=
  specOpc m &&& 0x7F == l.lopc

/-- Reader-side state of the controller from loco_controller.rs: the
shared pending-echo slot, the awaiting-answer flag and last message of
handle_next_message, and whether the writer has been notified. -/
structure ReaderState where
  pending : List Nat
  awaitResponse : Bool
  lastMessage : Protocol.Message
  notified : Bool
  deriving DecidableEq

/-- Event pushed to the sink channel, from loco_controller.rs
(LocoDriveMessage, without the serial-port error case). -/
inductive SinkEvent where
  | message (m : Protocol.Message)
  | answer (ans req : Protocol.Message)
  | error (e : MessageParseError)
  deriving DecidableEq

/-- Whether a sink event is an Answer event. -/
def SinkEvent.isAnswer : SinkEvent → Bool
  | .answer _ _ => true
  | _ => false

/-- LocoDriveController::read_next_message from loco_controller.rs, for
one complete inbound frame: when the frame equals the non-empty
pending-echo bytes the slot is cleared and the waiter notified, and in
ignore-own-traffic mode an Update error short-circuits; otherwise the
bytes are handed to Message::parse. -/
def readNextMessage (ignoreSend : Bool) (st : ReaderState) (buf : List Nat) :
    ReaderState × Option (Except MessageParseError Protocol.Message) :=
  if st.pending ≠ [] ∧ st.pending = buf then
    let st1 := { st with pending := [], notified := true }
    if ignoreSend then (st1, some (.error .Update))
    else (st1, Protocol.parseFull buf)
  else (st, Protocol.parseFull buf)

/-- LocoDriveController::handle_next_message from loco_controller.rs:
reads one frame, correlates a LongAck (by opcode copy) or a SlRdData
(when the last message awaits slot data) with the awaited message,
updates the awaiting-answer bookkeeping, and forwards the decoded
message or error to the sink; none marks a parse abort. -/
def handleNextMessage (ignoreSend : Bool) (st : ReaderState) (buf : List Nat) :
    Option (ReaderState × List SinkEvent) :=
  let (st1, res) := readNextMessage ignoreSend st buf
  match res with
  | none => none
  | some (.error .Update) => some (st1, [])
  | some (.error e) => some ({ st1 with awaitResponse := false }, [.error e])
  | some (.ok msg) =>
    let answers : List SinkEvent :=
      if st1.awaitResponse then
        match msg with
        | .LongAck lopc _ =>
            if checkOpc lopc st1.lastMessage then [.answer msg st1.lastMessage] else []
        | .SlRdData .. =>
            if awaitSlotData st1.lastMessage then [.answer msg st1.lastMessage] else []
        | _ => []
      else []
    let st2 :=
      if answerFollows msg then { st1 with awaitResponse := true, lastMessage := msg }
      else if msg ≠ .Busy then { st1 with awaitResponse := false }
      else st1
    some (st2, answers ++ [.message msg])

/-- Reader loop of the controller over a list of inbound frames,
accumulating the sink events in arrival order. -/
def runReader (ignoreSend : Bool) (st : ReaderState) (frames : List (List Nat)) :
    Option (ReaderState × List SinkEvent) :=
  match frames with
  | [] => some (st, [])
  | f :: rest =>
    match handleNextMessage ignoreSend st f with
    | none => none
    | some (st1, evs) =>
      match runReader ignoreSend st1 rest with
      | none => none
      | some (st2, evs2) => some (st2, evs ++ evs2)

end LocoController

/-- Specification predicate for the amended C4: the byte patterns of the
frames on which the embedded parse can abort instead of returning a
value (assert on the UhliFun constant byte, assert on the ImmPacket
check byte, abort on decoder-type selector bits 5 or 6, indexing beyond
a variable frame whose declared length is too short for its variant,
and the degenerate declared length 1 of opcode 0xFF). -/
def panicFrame (l : List Nat) : Prop :=
  match l with
  | opc :: b1 :: rest =>
    (opc = 0xFF ∧ b1 = 1) ∨
    (opc = 0xB5 ∧ (rest.getD 0 0 &&& 0x07 = 5 ∨ rest.getD 0 0 &&& 0x07 = 6)) ∨
    (opc = 0xD4 ∧ b1 ≠ 0x20) ∨
    (opc = 0xE7 ∧ (b1 ≠ 2 ∧ b1 ≠ 4 ∧ b1 ≠ 6) ∧
      (b1 < 14 ∨ rest.getD 1 0 &&& 0x07 = 5 ∨ rest.getD 1 0 &&& 0x07 = 6)) ∨
    (opc = 0xED ∧ (b1 ≠ 2 ∧ b1 ≠ 4 ∧ b1 ≠ 6) ∧
      (b1 < 11 ∨ rest.getD 0 0 ≠ 0x7F)) ∨
    (opc = 0xEF ∧ (b1 ≠ 2 ∧ b1 ≠ 4 ∧ b1 ≠ 6) ∧
      (b1 < 14 ∨ rest.getD 1 0 &&& 0x07 = 5 ∨ rest.getD 1 0 &&& 0x07 = 6))
  | _ => False

/-- Appending one byte to a fold XORs it in. -/
theorem foldXor_append_single (l : List Nat) (c : Nat) :
    foldXor (l ++ [c]) = foldXor l ^^^ c := by
  simp [foldXor, List.foldl_append]

/-- Appending the check_sum byte of protocol.rs makes the whole frame
fold to 0. -/
theorem foldXor_append_checkSum (l : List Nat) :
    foldXor (l ++ [Protocol.checkSum l]) = 0 := by
  rw [foldXor_append_single, Protocol.checkSum, Nat.xor_self]

/-- The bit mask with 0x48 can only produce the four mapped consist
patterns. -/
theorem and_0x48_cases (b : Nat) :
    b &&& 0x48 = 0x00 ∨ b &&& 0x48 = 0x08 ∨ b &&& 0x48 = 0x40 ∨ b &&& 0x48 = 0x48 := by
  have h1 : b &&& 0x48 ≤ 0x48 := Nat.and_le_right
  have h2 : (b &&& 0x48) &&& 0x48 = b &&& 0x48 := by
    rw [Nat.and_assoc, Nat.and_self]
  generalize hg : b &&& 0x48 = t at h1 h2 ⊢
  interval_cases t <;> revert h2 <;> decide

/-- The bit mask with 0x30 can only produce the four mapped state
patterns. -/
theorem and_0x30_cases (b : Nat) :
    b &&& 0x30 = 0x00 ∨ b &&& 0x30 = 0x10 ∨ b &&& 0x30 = 0x20 ∨ b &&& 0x30 = 0x30 := by
  have h1 : b &&& 0x30 ≤ 0x30 := Nat.and_le_right
  have h2 : (b &&& 0x30) &&& 0x30 = b &&& 0x30 := by
    rw [Nat.and_assoc, Nat.and_self]
  generalize hg : b &&& 0x30 = t at h1 h2 ⊢
  interval_cases t <;> revert h2 <;> decide

/-- The decoder-type selector fails exactly on the unmapped values 5
and 6. -/
theorem decoderOfVal_eq_none_iff (v : Nat) (h : v ≤ 7) :
    Protocol.decoderOfVal v = none ↔ v = 5 ∨ v = 6 := by
  interval_cases v <;> decide

/-- The consist selector of the old Stat1Arg::parse never actually
aborts, because the masked value is always mapped. -/
theorem consistOfVal_and_isSome (b : Nat) :
    (Protocol.consistOfVal (b &&& 0x48)).isSome := by
  rcases and_0x48_cases b with h | h | h | h <;> rw [h] <;> rfl

/-- The state selector of the old Stat1Arg::parse never actually aborts,
because the masked value is always mapped. -/
theorem stateOfVal_and_isSome (b : Nat) :
    (Protocol.stateOfVal (b &&& 0x30)).isSome := by
  rcases and_0x30_cases b with h | h | h | h <;> rw [h] <;> rfl

/-- The old Stat1Arg::parse aborts exactly when the decoder-type bits of
the status byte are 5 or 6. -/
theorem protocol_stat1_parse_none_iff (b : Nat) :
    Protocol.Stat1Arg.parse b = none ↔ (b &&& 0x07 = 5 ∨ b &&& 0x07 = 6) := by
  obtain ⟨c, hc⟩ := Option.isSome_iff_exists.mp (consistOfVal_and_isSome b)
  obtain ⟨s, hs⟩ := Option.isSome_iff_exists.mp (stateOfVal_and_isSome b)
  have h7 : b &&& 0x07 ≤ 7 := Nat.and_le_right
  unfold Protocol.Stat1Arg.parse
  rw [hc, hs]
  cases hd : Protocol.decoderOfVal (b &&& 0x07) with
  | none =>
    exact iff_of_true rfl ((decoderOfVal_eq_none_iff _ h7).mp hd)
  | some d =>
    refine iff_of_false (fun h => Option.noConfusion h) ?_
    intro h
    have hn := (decoderOfVal_eq_none_iff _ h7).mpr h
    rw [hd] at hn
    exact Option.noConfusion hn

/-- The newer Stat1Arg::parse (args.rs) aborts exactly when the
decoder-type bits of the status byte are 5 or 6. -/
theorem args_stat1_parse_none_iff (b : Nat) :
    Args.Stat1Arg.parse b = none ↔ (b &&& 0x07 = 5 ∨ b &&& 0x07 = 6) := by
  have h7 : b &&& 0x07 ≤ 7 := Nat.and_le_right
  unfold Args.Stat1Arg.parse
  cases hd : Protocol.decoderOfVal (b &&& 0x07) with
  | none =>
    exact iff_of_true rfl ((decoderOfVal_eq_none_iff _ h7).mp hd)
  | some d =>
    refine iff_of_false (fun h => Option.noConfusion h) ?_
    intro h
    have hn := (decoderOfVal_eq_none_iff _ h7).mpr h
    rw [hd] at hn
    exact Option.noConfusion hn

/-- The 2-byte dispatcher never aborts. -/
theorem parse2_ne_none (opc : Nat) : Protocol.parse2 opc ≠ none := by
  unfold Protocol.parse2
  split <;> simp

/-- The 4-byte dispatcher aborts only for SlotStat1 frames whose status
byte has decoder-type bits 5 or 6. -/
theorem parse4_eq_none (opc a0 a1 : Nat) :
    Protocol.parse4 opc a0 a1 = none →
      opc = 0xB5 ∧ (a1 &&& 0x07 = 5 ∨ a1 &&& 0x07 = 6) := by
  unfold Protocol.parse4
  split <;> intro h <;> simp_all [Option.map_eq_none', protocol_stat1_parse_none_iff]

/-- The 6-byte dispatcher aborts only for UhliFun frames whose constant
byte is not 0x20. -/
theorem parse6_eq_none (opc a0 a1 a2 a3 : Nat) :
    Protocol.parse6 opc a0 a1 a2 a3 = none → opc = 0xD4 ∧ a0 ≠ 0x20 := by
  unfold Protocol.parse6
  split <;> intro h <;> simp_all

/-- ImArg::parse aborts exactly when the check byte is not 0x7F. -/
theorem imArg_parse_eq_none_iff (cb reps dhi i1 i2 i3 i4 i5 : Nat) :
    Protocol.ImArg.parse cb reps dhi i1 i2 i3 i4 i5 = none ↔ cb ≠ 0x7F := by
  unfold Protocol.ImArg.parse
  split <;> rename_i hcb
  · simp [hcb]
  · split <;> simp [hcb]

/-- WrSlDataStructure::parse aborts exactly when the old Stat1Arg::parse
aborts on its status argument. -/
theorem wrSlData_parse_eq_none_iff (a1 a2 a3 a4 a5 a6 a7 a8 a9 a10 a11 : Nat) :
    Protocol.WrSlDataStructure.parse a1 a2 a3 a4 a5 a6 a7 a8 a9 a10 a11 = none ↔
      Protocol.Stat1Arg.parse a2 = none := by
  unfold Protocol.WrSlDataStructure.parse Protocol.WrSlDataGeneral.parse
  cases hs : Protocol.Stat1Arg.parse a2 <;> simp

/-- The variable-length dispatcher aborts only under the listed
conditions on its argument bytes. -/
theorem parseVar_eq_none (opc : Nat) (args : List Nat) :
    Protocol.parseVar opc args = none →
      (args.length + 2 ≠ args.getD 0 0) ∨
      (opc = 0xE7 ∧ (args.length < 12 ∨
        (args.getD 2 0 &&& 0x07 = 5 ∨ args.getD 2 0 &&& 0x07 = 6))) ∨
      (opc = 0xED ∧ (args.length < 9 ∨ args.getD 1 0 ≠ 0x7F)) ∨
      (opc = 0xEF ∧ (args.length < 12 ∨
        (args.getD 2 0 &&& 0x07 = 5 ∨ args.getD 2 0 &&& 0x07 = 6))) := by
  unfold Protocol.parseVar
  split
  · intro _
    left
    assumption
  · rename_i hlen
    split <;> intro h
    · right; left
      refine ⟨rfl, ?_⟩
      by_cases hl : args.length < 12
      · exact Or.inl hl
      · rw [if_neg hl] at h
        exact Or.inr ((protocol_stat1_parse_none_iff _).mp
          (Option.map_eq_none'.mp h))
    · right; right; left
      refine ⟨rfl, ?_⟩
      by_cases hl : args.length < 9
      · exact Or.inl hl
      · rw [if_neg hl] at h
        exact Or.inr ((imArg_parse_eq_none_iff _ _ _ _ _ _ _ _).mp
          (Option.map_eq_none'.mp h))
    · right; right; right
      refine ⟨rfl, ?_⟩
      by_cases hl : args.length < 12
      · exact Or.inl hl
      · rw [if_neg hl] at h
        exact Or.inr ((protocol_stat1_parse_none_iff _).mp
          ((wrSlData_parse_eq_none_iff _ _ _ _ _ _ _ _ _ _ _).mp
            (Option.map_eq_none'.mp h)))
    · exact absurd h (by simp)

/-- C1: the round-trip law fails on the code as written. Every frame
emitted by Message::to_message carries check_sum = plain XOR fold, so
Message::parse rejects it with InvalidChecksum instead of returning the
message; shown here on Message::Idle, whose emitted frame is
[0x85, 0x85], contradicting tests.rs test_one_message. -/
theorem c1_roundtrip_fails_on_emitted_frame :
    Protocol.toMessage .Idle = [0x85, 0x85] ∧
    Protocol.parseFull (Protocol.toMessage .Idle) =
      some (.error (.InvalidChecksum 0x85)) := by
  decide

/-- C2: the checksum generation law fails on the code. check_sum omits
the 0xFF complement, so the XOR fold of every emitted frame is 0 rather
than 0xFF, and the last byte of the Idle frame is 0x85 rather than the
complemented 0x7A that validate would accept. -/
theorem c2_checksum_generation_fails :
    (∀ m : Protocol.Message, foldXor (Protocol.toMessage m) = 0) ∧
    (Protocol.toMessage .Idle).getLast? = some 0x85 ∧
    0xFF ^^^ foldXor [0x85] = 0x7A ∧
    (∀ m : Protocol.Message, foldXor (Protocol.toMessage m) ≠ 0xFF) := by
  refine ⟨fun m => ?_, by decide, by decide, fun m h => ?_⟩
  · rw [Protocol.toMessage]
    exact foldXor_append_checkSum _
  · rw [Protocol.toMessage, foldXor_append_checkSum] at h
    exact absurd h (by decide)

/-- C4 counterexample: Message::parse aborts (assert failure) instead of
returning a value on the checksum-valid UhliFun frame whose constant
byte is 0 rather than 0x20. -/
theorem c4_counterexample_uhlifun_abort :
    foldXor [0xD4, 0x00, 0x00, 0x00, 0x00, 0x2B] = 0xFF ∧
    Protocol.parseFull [0xD4, 0x00, 0x00, 0x00, 0x00, 0x2B] = none := by
  decide

/-- Reading a position inside the taken prefix gives the original byte. -/
theorem getD_take_lt (l : List Nat) (n i : Nat) (h : i < n) :
    (l.take n).getD i 0 = l.getD i 0 := by
  simp [List.getD_eq_getElem?_getD, List.getElem?_take, h]

/-- Shape of the argument slice handed to the variable-length dispatcher. -/
theorem argsList_eq (opc b1 : Nat) (rest : List Nat) (len : Nat) (h1 : 1 ≤ len) :
    (((opc :: b1 :: rest).take len).drop 1).take (len - 2) =
      (b1 :: rest).take (len - 2) := by
  obtain ⟨k, rfl⟩ := Nat.exists_eq_add_of_le h1
  have ht : (opc :: b1 :: rest).take (1 + k) = opc :: (b1 :: rest).take k := by
    rw [Nat.add_comm]
    exact List.take_succ_cons
  rw [ht]
  show ((b1 :: rest).take k).take (1 + k - 2) = (b1 :: rest).take (1 + k - 2)
  rw [List.take_take, Nat.min_eq_left (by omega)]

/-- Length of the argument slice handed to the variable-length
dispatcher, when the stream holds a full frame. -/
theorem argsList_length (b1 : Nat) (rest : List Nat) (len : Nat)
    (h2 : len ≤ rest.length + 2) :
    ((b1 :: rest).take (len - 2)).length = len - 2 := by
  simp only [List.length_take, List.length_cons]
  omega

/-- C4 amended: Message::parse returns a Result value on every input
except those whose frame bytes match one of the explicit abort patterns
of the source (UhliFun constant byte, ImmPacket check byte, decoder-type
selector bits 5 or 6, variable frames whose declared length is too short
for the chosen variant, and the degenerate 0xFF frame of declared
length 1). -/
theorem c4_parse_total_outside_panic_frames :
    ∀ l : List Nat, Protocol.parseFull l = none → panicFrame l := by
  intro l h
  match l with
  | [] => exact absurd h (by decide)
  | [opc] => exact absurd h (by simp [Protocol.parseFull])
  | opc :: b1 :: rest =>
    simp only [Protocol.parseFull] at h
    simp only [panicFrame]
    split at h
    · exact absurd h (by simp)
    · rename_i len hdl
      by_cases htr : rest.length + 2 < len
      · rw [if_pos htr] at h
        exact absurd h (by simp)
      · rw [if_neg htr] at h
        unfold Protocol.parseChecked at h
        by_cases hck : foldXor ((opc :: b1 :: rest).take len) ≠ 0xFF
        · rw [if_pos hck] at h
          exact absurd h (by simp)
        · rw [if_neg hck] at h
          push_neg at hck
          have hlenvar : len ≠ 2 → len ≠ 4 → len ≠ 6 → len = b1 := by
            intro hv2 hv4 hv6
            unfold Protocol.declLen at hdl
            split at hdl <;> simp_all
          split at h
          · -- length 2: the dispatcher is total
            exact absurd h (parse2_ne_none opc)
          · -- length 4: only SlotStat1 with a bad status byte aborts
            have hr : 2 ≤ rest.length := by omega
            obtain ⟨hop, hbad⟩ := parse4_eq_none _ _ _ h
            have hg : ((opc :: b1 :: rest).take 4).getD 2 0 = rest.getD 0 0 := by
              simp only [List.take_succ_cons, List.getD_cons_succ]
              rw [getD_take_lt _ _ _ (by omega)]
            right; left
            exact ⟨hop, by rwa [hg] at hbad⟩
          · -- length 6: only UhliFun with a bad constant byte aborts
            obtain ⟨hop, hbad⟩ := parse6_eq_none _ _ _ _ _ h
            have hg : ((opc :: b1 :: rest).take 6).getD 1 0 = b1 := by
              simp only [List.take_succ_cons, List.getD_cons_succ, List.getD_cons_zero]
            right; right; left
            exact ⟨hop, by rwa [hg] at hbad⟩
          · -- variable length
            rename_i hne2 hne4 hne6
            have hb1 : len = b1 := hlenvar hne2 hne4 hne6
            match len, htr, hck, h, hb1, hne2, hne4, hne6 with
            | 0, htr, hck, h, hb1, _, _, _ =>
              rw [List.take_zero] at hck
              exact absurd hck (by decide)
            | 1, htr, hck, h, hb1, _, _, _ =>
              have hopc : opc = 0xFF := by
                have h1 : (opc :: b1 :: rest).take 1 = [opc] := by
                  simp
                rw [h1] at hck
                simpa [foldXor] using hck
              exact Or.inl ⟨hopc, hb1.symm⟩
            | Nat.succ (Nat.succ k), htr, hck, h, hb1, hne2, hne4, hne6 =>
              have hne2' : k + 2 ≠ 2 := hne2
              have hne4' : k + 2 ≠ 4 := hne4
              have hne6' : k + 2 ≠ 6 := hne6
              have hk1 : 1 ≤ k := by omega
              have hargs := argsList_eq opc b1 rest (k + 2) (by omega)
              rw [hargs] at h
              have hlen := argsList_length b1 rest (k + 2) (by omega)
              have hg0 : ((b1 :: rest).take (k + 2 - 2)).getD 0 0 = b1 := by
                rw [getD_take_lt _ _ _ (by omega)]
                exact List.getD_cons_zero
              rcases parseVar_eq_none _ _ h with h1 | ⟨hop, h2⟩ | ⟨hop, h2⟩ | ⟨hop, h2⟩
              · exfalso
                apply h1
                rw [hlen, hg0]
                omega
              · right; right; right; left
                refine ⟨hop, ⟨by omega, by omega, by omega⟩, ?_⟩
                by_cases h14 : b1 < 14
                · exact Or.inl h14
                · rcases h2 with hlt | hbad
                  · exfalso
                    omega
                  · refine Or.inr ?_
                    have hg2 : ((b1 :: rest).take (k + 2 - 2)).getD 2 0 =
                        rest.getD 1 0 := by
                      rw [getD_take_lt _ _ _ (by omega)]
                      exact List.getD_cons_succ
                    rwa [hg2] at hbad
              · right; right; right; right; left
                refine ⟨hop, ⟨by omega, by omega, by omega⟩, ?_⟩
                by_cases h11 : b1 < 11
                · exact Or.inl h11
                · rcases h2 with hlt | hbad
                  · exfalso
                    omega
                  · refine Or.inr ?_
                    have hg1 : ((b1 :: rest).take (k + 2 - 2)).getD 1 0 =
                        rest.getD 0 0 := by
                      rw [getD_take_lt _ _ _ (by omega)]
                      exact List.getD_cons_succ
                    rwa [hg1] at hbad
              · right; right; right; right; right
                refine ⟨hop, ⟨by omega, by omega, by omega⟩, ?_⟩
                by_cases h14 : b1 < 14
                · exact Or.inl h14
                · rcases h2 with hlt | hbad
                  · exfalso
                    omega
                  · refine Or.inr ?_
                    have hg2 : ((b1 :: rest).take (k + 2 - 2)).getD 2 0 =
                        rest.getD 1 0 := by
                      rw [getD_take_lt _ _ _ (by omega)]
                      exact List.getD_cons_succ
                    rwa [hg2] at hbad

/-- C4 witness: the theorem applied to the aborting UhliFun frame shows
that frame satisfies the abort pattern. -/
theorem c4_parse_total_outside_panic_frames_witness :
    panicFrame [0xD4, 0x00, 0x00, 0x00, 0x00, 0x2B] :=
  c4_parse_total_outside_panic_frames [0xD4, 0x00, 0x00, 0x00, 0x00, 0x2B] (by decide)

/-- C5 counterexample: corrupting the single byte at index 1 of the
emitted Idle frame (checksum byte 0x85 becomes 0x7A) makes parse return
the message successfully rather than InvalidChecksum, because the
emitted checksum is the uncomplemented fold. -/
theorem c5_counterexample_corruption_parses_ok :
    (Protocol.toMessage .Idle).set 1 0x7A = [0x85, 0x7A] ∧
    (Protocol.toMessage .Idle).getD 1 0 ≠ 0x7A ∧
    Protocol.parseFull ((Protocol.toMessage .Idle).set 1 0x7A) =
      some (.ok .Idle) := by
  decide

/-- C5 amended: corrupting any single byte of a full frame other than the
opcode (and other than the length byte of a variable-length frame) so
that the whole-frame XOR fold is not 0xFF makes Message::parse return
InvalidChecksum; the excluded corruptions can instead produce
UnknownOpcode, UnexpectedEnd, or even a successful parse, as the
counterexample shows. -/
theorem c5_corruption_detection_amended :
    ∀ (opc b1 : Nat) (rest : List Nat) (len i v : Nat),
      Protocol.declLen opc b1 = some len →
      rest.length + 2 = len →
      1 ≤ i → i < len →
      (opc &&& 0xE0 = 0xE0 → 2 ≤ i) →
      foldXor ((opc :: b1 :: rest).set i v) ≠ 0xFF →
      Protocol.parseFull ((opc :: b1 :: rest).set i v) =
        some (.error (.InvalidChecksum opc)) := by
  intro opc b1 rest len i v hdl hflen hi1 hilen hvar hfold
  match i, hi1 with
  | Nat.succ j, _ =>
    rcases j with _ | k
    · -- corruption of the second byte: only reachable for fixed classes
      have hcls : opc &&& 0xE0 ≠ 0xE0 := by
        intro hc
        exact absurd (hvar hc) (by omega)
      have hdl2 : Protocol.declLen opc v = some len := by
        unfold Protocol.declLen at hdl ⊢
        split at hdl <;> simp_all
      show Protocol.parseFull (opc :: v :: rest) = _
      simp only [Protocol.parseFull, hdl2]
      rw [if_neg (by omega)]
      unfold Protocol.parseChecked
      rw [if_pos]
      have hall : (opc :: v :: rest).take len = opc :: v :: rest := by
        have : (opc :: v :: rest).length = len := by
          simp
          omega
        rw [← this, List.take_length]
      rw [hall]
      exact hfold
    · -- corruption strictly after the second byte
      show Protocol.parseFull (opc :: b1 :: rest.set k v) = _
      simp only [Protocol.parseFull, hdl]
      rw [if_neg (by simp [List.length_set]; omega)]
      unfold Protocol.parseChecked
      rw [if_pos]
      have hall : (opc :: b1 :: rest.set k v).take len = opc :: b1 :: rest.set k v := by
        have : (opc :: b1 :: rest.set k v).length = len := by
          simp [List.length_set]
          omega
        rw [← this, List.take_length]
      rw [hall]
      exact hfold

/-- C5 witness: corrupting byte 2 of the emitted LocoSpd frame for slot
10 at Drive(122) by a non-complement delta yields InvalidChecksum. -/
theorem c5_corruption_detection_amended_witness :
    Protocol.toMessage (.LocoSpd (Protocol.SlotArg.parse 10) (.Drive 122)) =
      [0xA0, 0x0A, 0x7A, 0xD0] ∧
    Protocol.parseFull ([0xA0, 0x0A, 0x7A, 0xD0].set 2 0x7B) =
      some (.error (.InvalidChecksum 0xA0)) :=
  ⟨by decide,
    c5_corruption_detection_amended 0xA0 0x0A [0x7A, 0xD0] 4 2 0x7B
      (by decide) (by decide) (by decide) (by decide)
      (fun hc => absurd hc (by decide)) (by decide)⟩

/-- C6 counterexample: Drive(0) encodes to wire value 1, which decodes
as EmergencyStop, so decode of encode is not the identity on Drive(0). -/
theorem c6_counterexample_drive_zero :
    Args.SpeedArg.parse (Args.SpeedArg.spd (.Drive 0)) = .EmergencyStop ∧
    Args.SpeedArg.Drive 0 ≠ .EmergencyStop := by
  decide

/-- C6 amended: SpeedArg decodes 0 as Stop, 1 as EmergencyStop and n in
2..=127 as Drive(n-1); encodes Stop as 0, EmergencyStop as 1 and
Drive(n) as n+1 for n up to 126; decode of encode is the identity on
Stop, EmergencyStop and Drive(n) for n in 1..=126, but not on Drive(0),
which decodes back as EmergencyStop. -/
theorem c6_speed_encoding_amended :
    Args.SpeedArg.parse 0 = .Stop ∧
    Args.SpeedArg.parse 1 = .EmergencyStop ∧
    (∀ n : Nat, n ≤ 127 → 2 ≤ n → Args.SpeedArg.parse n = .Drive (n - 1)) ∧
    Args.SpeedArg.spd .Stop = 0 ∧
    Args.SpeedArg.spd .EmergencyStop = 1 ∧
    (∀ n : Nat, n ≤ 126 → Args.SpeedArg.spd (.Drive n) = n + 1) ∧
    Args.SpeedArg.parse (Args.SpeedArg.spd .Stop) = .Stop ∧
    Args.SpeedArg.parse (Args.SpeedArg.spd .EmergencyStop) = .EmergencyStop ∧
    (∀ n : Nat, n ≤ 126 → 1 ≤ n →
      Args.SpeedArg.parse (Args.SpeedArg.spd (.Drive n)) = .Drive n) := by
  decide

/-- C6 witness: the amended identity applied at Drive(5). -/
theorem c6_speed_encoding_amended_witness :
    Args.SpeedArg.parse (Args.SpeedArg.spd (.Drive 5)) = .Drive 5 :=
  c6_speed_encoding_amended.2.2.2.2.2.2.2.2 5 (by decide) (by decide)

/-- C7 counterexample: Stat1Arg::parse of args.rs aborts on status byte
0x05 (decoder-type selector 5) instead of masking or failing softly. -/
theorem c7_counterexample_stat1_abort :
    Args.Stat1Arg.parse 0x05 = none := by
  decide

/-- C7 amended: SlotArg::new masks out-of-range input to 7 bits (200
reads back as 72) for every input, but codec totality does not extend to
Stat1Arg::parse, which aborts exactly when the decoder-type selector
bits of the status byte are 5 or 6. -/
theorem c7_field_masking_amended :
    (Args.SlotArg.new 200).slot = 72 ∧
    (∀ n : Nat, (Args.SlotArg.new n).slot = n &&& 0x7F) ∧
    (∀ b : Nat, Args.Stat1Arg.parse b = none ↔
      (b &&& 0x07 = 5 ∨ b &&& 0x07 = 6)) := by
  exact ⟨by decide, fun n => rfl, args_stat1_parse_none_iff⟩

/-- C10: the F12/F20/F28 function-group getter and setter disagree on
bit positions. With group byte 0x05, set_f(12, true) writes mask 0x01
(bit 0), while f(12) reads bit 4, so the getter returns false right
after the setter stored true; a function byte with bit 4 set does make
f(12) true. -/
theorem c10_function_group_getter_setter_disagree :
    ((Args.FunctionArg.parse 0x05 0x00).set_f 12 true).f 12 = false ∧
    ((Args.FunctionArg.parse 0x05 0x00).set_f 12 true).function = 0x01 ∧
    (Args.FunctionArg.parse 0x05 0x10).f 12 = true ∧
    ((Args.FunctionArg.parse 0x05 0x10).set_f 12 false).f 12 = true := by
  decide

/-- C3: the length-dispatch law. The frame length is determined solely by
the three most-significant opcode bits per the table (0x80 is 2 bytes,
0xA0 is 4, 0xC0 is 6, 0xE0 takes the length from the second byte, any
other pattern is an unknown opcode); parse reads exactly the declared
number of bytes (bytes beyond them never change the result); a frame
shorter than declared yields UnexpectedEnd carrying the opcode; and the
concrete scenario of opcode 0xE7 with declared length 14 but only 10
bytes available yields UnexpectedEnd(0xE7). -/
theorem c3_length_dispatch :
    (∀ opc b1 : Nat, opc &&& 0xE0 = 0x80 → Protocol.declLen opc b1 = some 2) ∧
    (∀ opc b1 : Nat, opc &&& 0xE0 = 0xA0 → Protocol.declLen opc b1 = some 4) ∧
    (∀ opc b1 : Nat, opc &&& 0xE0 = 0xC0 → Protocol.declLen opc b1 = some 6) ∧
    (∀ opc b1 : Nat, opc &&& 0xE0 = 0xE0 → Protocol.declLen opc b1 = some b1) ∧
    (∀ opc b1 : Nat, opc &&& 0xE0 ≠ 0x80 → opc &&& 0xE0 ≠ 0xA0 →
      opc &&& 0xE0 ≠ 0xC0 → opc &&& 0xE0 ≠ 0xE0 →
      Protocol.declLen opc b1 = none) ∧
    (∀ (opc b1 : Nat) (rest junk : List Nat),
      Protocol.declLen opc b1 = some (rest.length + 2) →
      Protocol.parseFull (opc :: b1 :: (rest ++ junk)) =
        Protocol.parseFull (opc :: b1 :: rest)) ∧
    (∀ (opc b1 : Nat) (rest : List Nat),
      Protocol.declLen opc b1 = none →
      Protocol.parseFull (opc :: b1 :: rest) =
        some (.error (.UnknownOpcode opc))) ∧
    (∀ (opc b1 len : Nat) (rest : List Nat),
      Protocol.declLen opc b1 = some len → rest.length + 2 < len →
      Protocol.parseFull (opc :: b1 :: rest) =
        some (.error (.UnexpectedEnd opc))) ∧
    Protocol.parseFull [0xE7, 0x0E, 0, 0, 0, 0, 0, 0, 0, 0] =
      some (.error (.UnexpectedEnd 0xE7)) := by
  refine ⟨?_, ?_, ?_, ?_, ?_, ?_, ?_, ?_, by decide⟩
  · intro opc b1 h
    unfold Protocol.declLen
    rw [h]
  · intro opc b1 h
    unfold Protocol.declLen
    rw [h]
  · intro opc b1 h
    unfold Protocol.declLen
    rw [h]
  · intro opc b1 h
    unfold Protocol.declLen
    rw [h]
  · intro opc b1 h1 h2 h3 h4
    unfold Protocol.declLen
    split <;> simp_all
  · intro opc b1 rest junk hdl
    simp only [Protocol.parseFull, hdl]
    rw [if_neg (by simp), if_neg (by omega)]
    have htake : (opc :: b1 :: (rest ++ junk)).take (rest.length + 2) =
        opc :: b1 :: rest := by
      simp only [List.take_succ_cons]
      have : (rest ++ junk).take rest.length = rest := List.take_left rest junk
      rw [this]
    have htake2 : (opc :: b1 :: rest).take (rest.length + 2) =
        opc :: b1 :: rest := by
      have : (opc :: b1 :: rest).length = rest.length + 2 := by simp
      rw [← this, List.take_length]
    rw [htake, htake2]
  · intro opc b1 rest hdl
    simp only [Protocol.parseFull, hdl]
  · intro opc b1 len rest hdl hshort
    simp only [Protocol.parseFull, hdl]
    rw [if_pos hshort]

/-- C3 witness: the table, the exact-read law, the unknown-opcode case
and the truncation case, each applied at a concrete input. -/
theorem c3_length_dispatch_witness :
    Protocol.declLen 0x85 0x85 = some 2 ∧
    Protocol.declLen 0xA0 0x0A = some 4 ∧
    Protocol.declLen 0xD4 0x20 = some 6 ∧
    Protocol.declLen 0xE7 0x0E = some 0x0E ∧
    Protocol.declLen 0x05 0x00 = none ∧
    Protocol.parseFull [0xA0, 0x0A, 0x7B, 0x2E, 0x99] =
      Protocol.parseFull [0xA0, 0x0A, 0x7B, 0x2E] ∧
    Protocol.parseFull [0x05, 0x00] = some (.error (.UnknownOpcode 0x05)) ∧
    Protocol.parseFull [0xC0, 0x00, 0x00] = some (.error (.UnexpectedEnd 0xC0)) :=
  ⟨c3_length_dispatch.1 0x85 0x85 (by decide),
    c3_length_dispatch.2.1 0xA0 0x0A (by decide),
    c3_length_dispatch.2.2.1 0xD4 0x20 (by decide),
    c3_length_dispatch.2.2.2.1 0xE7 0x0E (by decide),
    c3_length_dispatch.2.2.2.2.1 0x05 0x00 (by decide) (by decide) (by decide)
      (by decide),
    c3_length_dispatch.2.2.2.2.2.1 0xA0 0x0A [0x7B, 0x2E] [0x99] (by decide),
    c3_length_dispatch.2.2.2.2.2.2.1 0x05 0x00 [] (by decide),
    c3_length_dispatch.2.2.2.2.2.2.2.1 0xC0 0x00 6 [0x00] (by decide) (by decide)⟩

/-- C8: send_message returns IllegalState when no reader thread is
running, NotWritable when the underlying write fails, Timeout when the
echo is neither observed during the write nor signalled before the
sending timeout, and Ok otherwise. -/
theorem c8_send_message_semantics :
    ∀ (ctx : LocoController.SendContext) (m : Protocol.Message),
      (ctx.readerRunning = false →
        (LocoController.sendMessage ctx m).1 = .error .IllegalState) ∧
      (ctx.readerRunning = true → ctx.writeOk = false →
        (LocoController.sendMessage ctx m).1 = .error .NotWritable) ∧
      (ctx.readerRunning = true → ctx.writeOk = true →
        ctx.echoClearedDuringWrite = false → ctx.notifiedBeforeTimeout = false →
        (LocoController.sendMessage ctx m).1 = .error .Timeout) ∧
      (ctx.readerRunning = true → ctx.writeOk = true →
        (ctx.echoClearedDuringWrite = true ∨ ctx.notifiedBeforeTimeout = true) →
        (LocoController.sendMessage ctx m).1 = .ok ()) := by
  intro ctx m
  obtain ⟨r, w, e, n⟩ := ctx
  cases r <;> cases w <;> cases e <;> cases n <;>
    simp [LocoController.sendMessage]

/-- C8 witness: with a reader running, a successful write and no echo
before the timeout, send_message times out. -/
theorem c8_send_message_semantics_witness :
    (LocoController.sendMessage ⟨true, true, false, false⟩ .Idle).1 =
      .error .Timeout :=
  (c8_send_message_semantics ⟨true, true, false, false⟩ .Idle).2.2.1 rfl rfl rfl rfl

/-- C9: echo/ack correlation. Starting from the post-send state (the
pending-echo slot holds the written frame), a transport that echoes the
frame back once and then delivers a LongAck whose opcode copy matches
the sent message's opcode makes the reader clear the pending slot and
notify the waiting send_message on the echo, and the sink receives
exactly one Answer event pairing the acknowledgment with the request
(plus the two plain Message events, in arrival order). -/
theorem c9_echo_ack_correlation :
    ∀ (m : Protocol.Message) (lopcA : Protocol.LopcArg) (ack1A : Protocol.Ack1Arg)
      (aFrame : List Nat),
      Protocol.parseFull (LocoController.specToWire m) = some (.ok m) →
      LocoController.answerFollows m = true →
      Protocol.parseFull aFrame = some (.ok (.LongAck lopcA ack1A)) →
      lopcA.lopc = LocoController.specOpc m &&& 0x7F →
      LocoController.runReader false
          ⟨LocoController.specToWire m, false, .Busy, false⟩
          [LocoController.specToWire m, aFrame] =
        some (⟨[], false, m, true⟩,
          [.message m, .answer (.LongAck lopcA ack1A) m,
            .message (.LongAck lopcA ack1A)]) ∧
      ([LocoController.SinkEvent.message m,
        .answer (.LongAck lopcA ack1A) m,
        .message (.LongAck lopcA ack1A)].countP
          LocoController.SinkEvent.isAnswer) = 1 := by
  intro m lopcA ack1A aFrame h1 h2 h3 h4
  have hne : LocoController.specToWire m ≠ [] := by
    simp [LocoController.specToWire]
  have hchk : LocoController.checkOpc lopcA m = true := by
    unfold LocoController.checkOpc
    rw [h4]
    exact beq_self_eq_true _
  have hstep1 : LocoController.handleNextMessage false
      ⟨LocoController.specToWire m, false, Protocol.Message.Busy, false⟩
      (LocoController.specToWire m) =
      some (⟨[], true, m, true⟩, [.message m]) := by
    unfold LocoController.handleNextMessage LocoController.readNextMessage
    rw [if_pos ⟨hne, rfl⟩]
    simp only [Bool.false_eq_true, if_false, h1]
    cases m <;> simp_all [LocoController.answerFollows]
  have hstep2 : LocoController.handleNextMessage false
      ⟨[], true, m, true⟩ aFrame =
      some (⟨[], false, m, true⟩,
        [.answer (.LongAck lopcA ack1A) m, .message (.LongAck lopcA ack1A)]) := by
    unfold LocoController.handleNextMessage LocoController.readNextMessage
    rw [if_neg (fun hc => hc.1 rfl)]
    simp only [h3]
    simp [hchk, LocoController.answerFollows]
  refine ⟨?_, by simp [List.countP_cons, LocoController.SinkEvent.isAnswer]⟩
  simp only [LocoController.runReader, hstep1, hstep2]
  rfl

/-- C9 witness: the scenario instantiated with a loco-address request for
address 5, echoed back as [0xBF, 0x00, 0x05, 0x45], followed by the
matching LongAck frame [0xB4, 0x3F, 0x01, 0x75]. -/
theorem c9_echo_ack_correlation_witness :
    LocoController.runReader false
        ⟨LocoController.specToWire (.LocoAdr ⟨5⟩), false, .Busy, false⟩
        [LocoController.specToWire (.LocoAdr ⟨5⟩), [0xB4, 0x3F, 0x01, 0x75]] =
      some (⟨[], false, .LocoAdr ⟨5⟩, true⟩,
        [.message (.LocoAdr ⟨5⟩),
          .answer (.LongAck ⟨0x3F⟩ ⟨0x01⟩) (.LocoAdr ⟨5⟩),
          .message (.LongAck ⟨0x3F⟩ ⟨0x01⟩)]) :=
  (c9_echo_ack_correlation (.LocoAdr ⟨5⟩) ⟨0x3F⟩ ⟨0x01⟩
    [0xB4, 0x3F, 0x01, 0x75] (by decide) (by decide) (by decide) (by decide)).1

end LocoDrive
